import Mathlib

/-!
Shallow embedding of `AgriculturalSunAndWaterMetrics1.0.py` (agrivoltaics-ET).

The repository computes, for a field of tilted rotation-limited solar
structures, a daily shade fraction over a year and uses it to discount an
externally fetched evapotranspiration (ET) series.

Modelling conventions:
* floating-point numbers are modelled as real numbers (`ℝ`);
* instants handled by `datetime` arithmetic are modelled as natural numbers of
  microseconds (`datetime` stores microsecond precision);
* external collaborators (the skyfield solar-position provider, the timezone
  resolver, the ET HTTP fetch) are passed in as function parameters or plain
  data, exactly as the spec treats them (§6);
* Python's `zip`, `min(key=...)`, list comprehensions and `while` loops are
  embedded by `List.zip`, an explicit left fold, `List.map`/`List.filter` and
  well-founded recursion respectively.
-/

namespace AgriET

/-! ### Time utilities (microsecond arithmetic for `datetime` values) -/

/-- Number of microseconds in one minute. -/
def MICROS_PER_MIN : ℕ := 60000000

/-- Number of microseconds in one hour. -/
def MICROS_PER_HOUR : ℕ := 3600000000

/-- `t.replace(second=0, microsecond=0)`: truncate an instant to its minute. -/
def floorMinute (t : ℕ) : ℕ := MICROS_PER_MIN * (t / MICROS_PER_MIN)

/-- Line 234 of the source: `sunrise.replace(second=0, microsecond=0) +
timedelta(minutes=1 if sunrise.second or sunrise.microsecond else 0)` —
round up to the next whole minute unless the instant is already exact. -/
def ceilMinuteCode (t : ℕ) : ℕ :=
  floorMinute t + (if t % MICROS_PER_MIN = 0 then 0 else MICROS_PER_MIN)

/-- `current_time.hour` for an instant measured in microseconds. -/
def hourOf (t : ℕ) : ℕ := t / MICROS_PER_HOUR % 24

/-- `current_time.minute` for an instant measured in microseconds. -/
def minuteOf (t : ℕ) : ℕ := t / MICROS_PER_MIN % 60

/-- Line 112 of the source: `utc_hour = (local_hour - timezone) % 24`.
Python's `%` on integers agrees with `Int.emod` for a positive modulus. -/
def utc_hour_of (local_hour : ℕ) (timezone : ℤ) : ℤ :=
  ((local_hour : ℤ) - timezone) % 24

/-- Absolute time, in minutes, of the instant with day index `day`, hour
`hour` and minute `minute` (days are abstract calendar-day indices). -/
def minutesOfDayHour (day hour minute : ℤ) : ℤ := (day * 24 + hour) * 60 + minute

/-- Calendar-day index of an absolute time in minutes (floor division,
matching calendar-day rollover; `Int` division by a positive constant is
euclidean, i.e. floor). -/
def dayOf (m : ℤ) : ℤ := m / 1440

/-! ### `find_closest_sunrise_sunset` (lines 177–188)

A sunrise/sunset pair is modelled as a pair of absolute instants (minutes,
say — any common unit works).  The tz-aware target midnight is the given
`target` instant.  Python's `min(xs, key=k)` scans left to right and keeps
the first element whose key is strictly smaller than the current best, hence
the fold below; `min` of an empty list raises, modelled by `Option`. -/

/-- Lines 177–188: return the stored pair whose sunrise (first component) is
closest in absolute time to `target`; first minimal match wins. -/
def find_closest_sunrise_sunset (pairs : List (ℤ × ℤ)) (target : ℤ) :
    Option (ℤ × ℤ) :=
  match pairs with
  | [] => none
  | x :: xs =>
      some (xs.foldl (fun best p =>
        if |target - p.1| < |target - best.1| then p else best) x)

/-! ### ET records and the adjustment / summation steps -/

/-- One entry of the ET series returned by the OpenET fetch: a JSON object
that may or may not carry an `'et'` key (the code guards some sums with
`if 'et' in item`), with its value in mm. -/
structure ETEntry where
  hasET : Bool
  et : ℝ

/-- One daily shade record as produced by `iterate_through_year`. -/
structure ShadeRec where
  shade : ℝ

/-- Line 313 of the source:
`list(map(lambda dm: dm[0]['et'] * (1 - dm[1]['shade']), zip(et_data, daily_shade)))`.
`List.zip` truncates to the shorter list exactly as Python's `zip` does. -/
noncomputable def adjusted_et_values (et_data : List ETEntry)
    (daily_shade : List ShadeRec) : List ℝ :=
  (et_data.zip daily_shade).map fun dm => dm.1.et * (1 - dm.2.shade)

/-- Lines 377–388: `water_saved` sums `item['et']` over the entries that have
an `'et'` key, sums the adjusted values, and returns the difference. -/
noncomputable def water_saved (et_data : List ETEntry) (adjusted : List ℝ) : ℝ :=
  ((et_data.filter fun item => item.hasET).map fun item => item.et).sum
    - adjusted.sum

/-! ### Solar geometry (lines 69–131) -/

/-- `math.radians`. -/
noncomputable def radians (d : ℝ) : ℝ := d * Real.pi / 180

/-- Lines 69–80: the four-branch atmospheric refraction model, in arcseconds. -/
noncomputable def atmospheric_refraction (e : ℝ) : ℝ :=
  if e > 85 then 0
  else if e > 5 then
    58.1 / Real.tan (radians e) - 0.07 / Real.tan (radians e) ^ 3
      + 0.000086 / Real.tan (radians e) ^ 5
  else if e > -0.575 then
    1735 + e * (-518.2 + e * (103.4 + e * (-12.79 + e * 0.711)))
  else
    -20.772 / Real.tan (radians e)

/-- Lines 82–88: convert the refraction to degrees, add it to the elevation,
and clamp to a strictly positive floor. -/
noncomputable def solar_position_adj (e : ℝ) : ℝ :=
  max 0.0000000001 (e + atmospheric_refraction e / 3600)

/-- Line 125: `azimuth_blume = min(max(azimuth_S, -max_rotation), max_rotation)`. -/
noncomputable def azimuth_blume (azimuth_S max_rotation : ℝ) : ℝ :=
  min (max azimuth_S (-max_rotation)) max_rotation

/-- Lines 92–105: shadow footprint area from the structure geometry and the
(corrected) sun angles. -/
noncomputable def shadow_dimensions (height width tilt elevation_angle_deg
    solar_azimuth azimuth_blume_v : ℝ) : ℝ :=
  let height_bottom := width - height / 2 * Real.cos (radians tilt)
  let height_top := width + height / 2 * Real.cos (radians tilt)
  let length_shadow := height_top / Real.tan (radians elevation_angle_deg)
    - height_bottom / Real.tan (radians elevation_angle_deg)
    + height * Real.cos (radians tilt)
  let width_shadow := width * Real.cos (radians (azimuth_blume_v - solar_azimuth))
  length_shadow * width_shadow

/-- Lines 119–131 of `shade_coverage`, after the provider call: refraction
adjustment, azimuth-from-south conversion, clamping, shadow projection, and
the final `min(1, area / ground_area)`. -/
noncomputable def shade_coverage_core (solarelevation azimuth ground_area
    height width tilt max_rotation : ℝ) : ℝ :=
  let elevation := solar_position_adj solarelevation
  let azimuth_S := 180 - azimuth
  let azB := azimuth_blume azimuth_S max_rotation
  min 1 (shadow_dimensions height width tilt elevation azimuth_S azB / ground_area)

/-- Lines 107–131: full `shade_coverage`.  The skyfield provider
(`solar_angles_skyfield`, an external collaborator) is abstracted as
`pos year month day utc_hour minute = (elevation, azimuth)`; the latitude and
longitude are absorbed into `pos`. -/
noncomputable def shade_coverage (pos : ℕ → ℕ → ℕ → ℤ → ℕ → ℝ × ℝ)
    (local_year : ℕ) (ground_area height width tilt : ℝ) (local_hour : ℕ)
    (max_rotation : ℝ) (timezone : ℤ) (local_month local_day local_minute : ℕ) :
    ℝ :=
  let angles := pos local_year local_month local_day
    (utc_hour_of local_hour timezone) local_minute
  shade_coverage_core angles.1 angles.2 ground_area height width tilt max_rotation

/-! ### Daily aggregation (lines 225–256) -/

/-- The per-sample call of the loop body (line 248): `shade_coverage` at the
hour and minute of the current instant, with the day's fixed date fields. -/
noncomputable def dailySample (pos : ℕ → ℕ → ℕ → ℤ → ℕ → ℝ × ℝ)
    (year month day : ℕ) (ground_area height width tilt max_rotation : ℝ)
    (timezone : ℤ) (t : ℕ) : ℝ :=
  shade_coverage pos year ground_area height width tilt (hourOf t)
    max_rotation timezone month day (minuteOf t)

/-- Lines 245–252: `while current_time <= sunset_rounded:` accumulate the
shade sample and the count, stepping by `step` microseconds (the source's
`timedelta(minutes=60)`; positivity of the step is what makes the loop
terminate).  Returns (total_shade_coverage, count). -/
noncomputable def shadeLoop (f : ℕ → ℝ) (step : ℕ) (hstep : 0 < step)
    (sunset : ℕ) (current : ℕ) : ℝ × ℕ :=
  if h : current ≤ sunset then
    let rest := shadeLoop f step hstep sunset (current + step)
    (f current + rest.1, rest.2 + 1)
  else (0, 0)
termination_by sunset + 1 - current
decreasing_by omega

/-- The loop step is positive (3.6e9 microseconds = 60 minutes). -/
def micros_per_hour_pos : 0 < MICROS_PER_HOUR := by decide

/-- Lines 233–256 of `iterate_sunrise_to_sunset`, taking the matched
sunrise/sunset pair (the `find_closest_sunrise_sunset` result destructured on
line 231) as explicit instants: round, sample hourly, and return
`total / count if count else 0`. -/
noncomputable def iterate_sunrise_to_sunset (pos : ℕ → ℕ → ℕ → ℤ → ℕ → ℝ × ℝ)
    (month day year : ℕ) (ground_area height width tilt max_rotation : ℝ)
    (timezone : ℤ) (sunrise sunset : ℕ) : ℝ :=
  let sunrise_rounded := ceilMinuteCode sunrise
  let sunset_rounded := floorMinute sunset
  let r := shadeLoop
    (dailySample pos year month day ground_area height width tilt max_rotation timezone)
    MICROS_PER_HOUR micros_per_hour_pos sunset_rounded sunrise_rounded
  if r.2 ≠ 0 then r.1 / (r.2 : ℝ) else 0

/-- A constant stand-in for the external solar-position oracle, used for
concrete evaluations: elevation 45°, azimuth 0° (due north) at every
queried instant. -/
noncomputable def constPosNorth : ℕ → ℕ → ℕ → ℤ → ℕ → ℝ × ℝ :=
  fun _ _ _ _ _ => (45, 0)

/-! ### Helper lemmas about the trigonometric evaluations -/

lemma radians_45_eq : radians 45 = Real.pi / 4 := by
  unfold radians; ring

lemma tan_radians_45 : Real.tan (radians 45) = 1 := by
  rw [radians_45_eq, Real.tan_pi_div_four]

lemma tan_radians_pos {e : ℝ} (h0 : 0 < e) (h90 : e < 90) :
    0 < Real.tan (radians e) := by
  apply Real.tan_pos_of_pos_of_lt_pi_div_two
  · unfold radians
    positivity
  · unfold radians
    have hp : 0 < (90 - e) * Real.pi := mul_pos (by linarith) Real.pi_pos
    nlinarith [hp]

lemma atmospheric_refraction_45 : atmospheric_refraction 45 = 58.030086 := by
  unfold atmospheric_refraction
  rw [if_neg (by norm_num), if_pos (by norm_num), tan_radians_45]
  norm_num

lemma solar_position_adj_45 :
    solar_position_adj 45 = 45 + 58.030086 / 3600 := by
  unfold solar_position_adj
  rw [atmospheric_refraction_45]
  exact max_eq_right (by norm_num)

lemma tan_adj_45_pos : 0 < Real.tan (radians (solar_position_adj 45)) := by
  rw [solar_position_adj_45]
  exact tan_radians_pos (by norm_num) (by norm_num)

lemma radians_zero_eq : radians 0 = 0 := by
  unfold radians; ring

/-- With sun elevation 45°, azimuth 0° (due north), unit geometry, zero tilt
and zero allowed rotation, the clamped structure azimuth is 0 while the sun's
azimuth-from-south is 180, so the projected width is negative and the shade
coverage comes out strictly negative. -/
lemma shade_coverage_core_neg_example : shade_coverage_core 45 0 1 1 1 0 0 < 0 := by
  have hT := tan_adj_45_pos
  set T := Real.tan (radians (solar_position_adj 45)) with hTdef
  have hT' : T ≠ 0 := ne_of_gt hT
  have hblume : azimuth_blume (180 - 0) 0 = 0 := by
    unfold azimuth_blume; norm_num
  have hcos0 : Real.cos (radians 0) = 1 := by rw [radians_zero_eq, Real.cos_zero]
  have hcosm : Real.cos (radians (0 - (180 - 0))) = -1 := by
    have h : radians (0 - (180 - 0)) = -Real.pi := by unfold radians; ring
    rw [h, Real.cos_neg, Real.cos_pi]
  have h1T : 0 < 1 / T := by positivity
  have key : shade_coverage_core 45 0 1 1 1 0 0 = min 1 (-(1 / T + 1)) := by
    simp only [shade_coverage_core, shadow_dimensions, hblume, hcosm, hcos0, ← hTdef]
    congr 1
    field_simp
    ring
  rw [key, min_eq_right (by linarith)]
  linarith

/-- With sun azimuth 180° (due south) the azimuth-from-south is 0, the clamped
azimuth is 0, and the projected shadow area is positive. -/
lemma shadow_dimensions_nonneg_example :
    0 ≤ shadow_dimensions 1 1 0 (solar_position_adj 45) (180 - 180)
      (azimuth_blume (180 - 180) 0) := by
  have hT := tan_adj_45_pos
  set T := Real.tan (radians (solar_position_adj 45)) with hTdef
  have hT' : T ≠ 0 := ne_of_gt hT
  have hblume : azimuth_blume (180 - 180) 0 = 0 := by
    unfold azimuth_blume; norm_num
  have hcos0 : Real.cos (radians 0) = 1 := by rw [radians_zero_eq, Real.cos_zero]
  have hcosd : Real.cos (radians (0 - (180 - 180))) = 1 := by
    have h : radians (0 - (180 - 180)) = 0 := by unfold radians; ring
    rw [h, Real.cos_zero]
  have h1T : 0 < 1 / T := by positivity
  have key : shadow_dimensions 1 1 0 (solar_position_adj 45) (180 - 180)
      (azimuth_blume (180 - 180) 0) = 1 / T + 1 := by
    simp only [shadow_dimensions, hblume, hcosd, hcos0, ← hTdef]
    field_simp
    ring
  rw [key]
  linarith

/-! ### Closed form of the hourly sampling loop -/

lemma shadeLoop_closed (f : ℕ → ℝ) (step : ℕ) (hstep : 0 < step) (ss : ℕ)
    (cur : ℕ) :
    shadeLoop f step hstep ss cur =
      if cur ≤ ss then
        (∑ i ∈ Finset.range ((ss - cur) / step + 1), f (cur + i * step),
         (ss - cur) / step + 1)
      else (0, 0) := by
  have main : ∀ k cur, ss + 1 - cur ≤ k → shadeLoop f step hstep ss cur =
      if cur ≤ ss then
        (∑ i ∈ Finset.range ((ss - cur) / step + 1), f (cur + i * step),
         (ss - cur) / step + 1)
      else (0, 0) := by
    intro k
    induction k with
    | zero =>
      intro cur hk
      have hgt : ¬ cur ≤ ss := by omega
      rw [shadeLoop, dif_neg hgt, if_neg hgt]
    | succ k ih =>
      intro cur hk
      by_cases hc : cur ≤ ss
      · rw [shadeLoop, dif_pos hc, if_pos hc, ih (cur + step) (by omega)]
        by_cases h2 : cur + step ≤ ss
        · rw [if_pos h2]
          have hle : step ≤ ss - cur := by omega
          have hdiv : (ss - cur) / step = (ss - (cur + step)) / step + 1 := by
            have harg : ss - cur - step = ss - (cur + step) := by omega
            rw [Nat.div_eq_sub_div hstep hle, harg]
          have hsum : ∑ i ∈ Finset.range ((ss - (cur + step)) / step + 1 + 1),
                f (cur + i * step)
              = f cur + ∑ i ∈ Finset.range ((ss - (cur + step)) / step + 1),
                f (cur + step + i * step) := by
            rw [Finset.sum_range_succ' (fun i => f (cur + i * step))]
            rw [add_comm]
            congr 1
            · norm_num
            · apply Finset.sum_congr rfl
              intro i _
              congr 1
              ring
          rw [hdiv, hsum]
        · rw [if_neg h2]
          have hlt : ss - cur < step := by omega
          have hdiv0 : (ss - cur) / step = 0 := Nat.div_eq_of_lt hlt
          rw [hdiv0]
          simp
      · rw [shadeLoop, dif_neg hc, if_neg hc]
  exact main (ss + 1 - cur) cur le_rfl

/-! ### Claim theorems -/

/-- C1 (counterexample): the ET adjustment does NOT fail on mismatched
lengths: zipping an ET series of length 2 against a shade series of length 1
silently yields a well-formed adjusted series of length 1 instead of an
error. -/
theorem adjusted_et_truncates_cex :
    ([ETEntry.mk true 3, ETEntry.mk true 4].length
      ≠ [ShadeRec.mk (1 / 2)].length) ∧
    adjusted_et_values [ETEntry.mk true 3, ETEntry.mk true 4]
      [ShadeRec.mk (1 / 2)] = [(1.5 : ℝ)] := by
  constructor
  · norm_num
  · simp [adjusted_et_values]
    norm_num

/-- C1 (amended): the adjustment step `list(map(..., zip(et_data, daily_shade)))`
silently truncates to the shorter input: the adjusted series always has
length `min |et| |shade|`, and no length or date-alignment check is made. -/
theorem adjusted_et_length_min (et_data : List ETEntry)
    (daily_shade : List ShadeRec) :
    (adjusted_et_values et_data daily_shade).length
      = min et_data.length daily_shade.length := by
  simp [adjusted_et_values]

/-- C2 (counterexample): with positive ground-cell area 1, sun elevation 45°
and azimuth 0° (due north), unit geometry, zero tilt, zero max rotation, the
shade coverage is strictly negative — outside [0,1]. -/
theorem shade_coverage_negative_cex :
    (0 : ℝ) < 1 ∧ shade_coverage_core 45 0 1 1 1 0 0 < 0 :=
  ⟨by norm_num, shade_coverage_core_neg_example⟩

/-- C2 (amended): the sampler returns `min(1, area/groundArea)`; for positive
ground area this is always ≤ 1, and it lies in [0,1] whenever the computed
shadow footprint area is nonnegative (negative computed areas are not clamped
and produce negative coverage). -/
theorem shade_coverage_core_bounds (se az g h w tl mr : ℝ) (hg : 0 < g)
    (hA : 0 ≤ shadow_dimensions h w tl (solar_position_adj se) (180 - az)
      (azimuth_blume (180 - az) mr)) :
    shade_coverage_core se az g h w tl mr
      = min 1 (shadow_dimensions h w tl (solar_position_adj se) (180 - az)
          (azimuth_blume (180 - az) mr) / g) ∧
    0 ≤ shade_coverage_core se az g h w tl mr ∧
    shade_coverage_core se az g h w tl mr ≤ 1 := by
  have heq : shade_coverage_core se az g h w tl mr
      = min 1 (shadow_dimensions h w tl (solar_position_adj se) (180 - az)
          (azimuth_blume (180 - az) mr) / g) := rfl
  refine ⟨heq, ?_, ?_⟩
  · rw [heq]
    exact le_min zero_le_one (div_nonneg hA hg.le)
  · rw [heq]
    exact min_le_left _ _

/-- C2 (witness): sun due south (azimuth 180°), elevation 45°, unit geometry,
ground area 4 — nonnegative footprint, so the coverage is within [0,1]. -/
theorem shade_coverage_core_bounds_witness :
    (0 : ℝ) < 4 ∧
    0 ≤ shadow_dimensions 1 1 0 (solar_position_adj 45) (180 - 180)
      (azimuth_blume (180 - 180) 0) ∧
    (shade_coverage_core 45 180 4 1 1 0 0
        = min 1 (shadow_dimensions 1 1 0 (solar_position_adj 45) (180 - 180)
            (azimuth_blume (180 - 180) 0) / 4) ∧
      0 ≤ shade_coverage_core 45 180 4 1 1 0 0 ∧
      shade_coverage_core 45 180 4 1 1 0 0 ≤ 1) :=
  ⟨by norm_num, shadow_dimensions_nonneg_example,
    shade_coverage_core_bounds 45 180 4 1 1 0 0 (by norm_num)
      shadow_dimensions_nonneg_example⟩

/-- C3 (counterexample): the refraction model is NOT continuous at
elevation 85°: it is identically 0 on (85, ∞) but strictly positive at 85
(about 5 arcseconds), so the one-sided limits disagree. -/
theorem refraction_discontinuous_at_85 :
    ¬ ContinuousAt atmospheric_refraction 85 := by
  intro hcont
  have hT : 0 < Real.tan (radians 85) := tan_radians_pos (by norm_num) (by norm_num)
  have hpos : 0 < atmospheric_refraction 85 := by
    unfold atmospheric_refraction
    rw [if_neg (by norm_num), if_pos (by norm_num)]
    set t := Real.tan (radians 85) with ht
    have hnum : 0 < 58.1 * t ^ 4 - 0.07 * t ^ 2 + 0.000086 := by
      nlinarith [sq_nonneg (t ^ 2 - 0.07 / 116.2)]
    have heq : 58.1 / t - 0.07 / t ^ 3 + 0.000086 / t ^ 5
        = (58.1 * t ^ 4 - 0.07 * t ^ 2 + 0.000086) / t ^ 5 := by
      field_simp
      ring
    rw [heq]
    exact div_pos hnum (by positivity)
  have hev : atmospheric_refraction =ᶠ[nhdsWithin 85 (Set.Ioi 85)]
      fun _ => 0 := by
    filter_upwards [self_mem_nhdsWithin] with x hx
    unfold atmospheric_refraction
    rw [if_pos (Set.mem_Ioi.mp hx)]
  have h1 : Filter.Tendsto atmospheric_refraction (nhdsWithin 85 (Set.Ioi 85))
      (nhds (atmospheric_refraction 85)) := hcont.continuousWithinAt
  have h2 : Filter.Tendsto atmospheric_refraction (nhdsWithin 85 (Set.Ioi 85))
      (nhds 0) := Filter.Tendsto.congr' hev.symm tendsto_const_nhds
  have h0 := tendsto_nhds_unique h1 h2
  linarith

/-- C3 (amended): for every elevation e > 0 the refraction is nonnegative.
(The model is not continuous at the 85° branch boundary, see the
counterexample; the 5° and −0.575° boundaries match only approximately.) -/
theorem atmospheric_refraction_nonneg (e : ℝ) (he : 0 < e) :
    0 ≤ atmospheric_refraction e := by
  unfold atmospheric_refraction
  split_ifs with h1 h2 h3
  · exact le_refl 0
  · have h85 : e ≤ 85 := not_lt.mp h1
    have hT : 0 < Real.tan (radians e) :=
      tan_radians_pos (by linarith) (by linarith)
    set t := Real.tan (radians e) with ht
    have hnum : 0 ≤ 58.1 * t ^ 4 - 0.07 * t ^ 2 + 0.000086 := by
      nlinarith [sq_nonneg (t ^ 2 - 0.07 / 116.2)]
    have heq : 58.1 / t - 0.07 / t ^ 3 + 0.000086 / t ^ 5
        = (58.1 * t ^ 4 - 0.07 * t ^ 2 + 0.000086) / t ^ 5 := by
      field_simp
      ring
    rw [heq]
    exact div_nonneg hnum (by positivity)
  · have h5 : e ≤ 5 := not_lt.mp h2
    nlinarith [mul_nonneg (sq_nonneg e) (by linarith : (0:ℝ) ≤ 5 - e),
      sq_nonneg (e - 518.2 / 78.9), sq_nonneg (e * e)]
  · linarith [not_lt.mp h3]

/-- C3 (witness): the amended nonnegativity applied at elevation 90°. -/
theorem refraction_nonneg_witness :
    (0 : ℝ) < 90 ∧ 0 ≤ atmospheric_refraction 90 :=
  ⟨by norm_num, atmospheric_refraction_nonneg 90 (by norm_num)⟩

/-- C5: for max_rotation ≥ 0 the clamped structure azimuth always lies in
[−max_rotation, max_rotation], and with max_rotation = 0 it is 0 for every
solar azimuth. -/
theorem azimuth_blume_clamped (azimuth_S max_rotation : ℝ)
    (h : 0 ≤ max_rotation) :
    -max_rotation ≤ azimuth_blume azimuth_S max_rotation ∧
    azimuth_blume azimuth_S max_rotation ≤ max_rotation ∧
    (max_rotation = 0 → azimuth_blume azimuth_S max_rotation = 0) := by
  unfold azimuth_blume
  refine ⟨le_min (le_max_right _ _) (by linarith), min_le_right _ _, ?_⟩
  intro h0
  subst h0
  rw [neg_zero]
  exact min_eq_right (le_max_right _ _)

/-- C5 (witness): the clamp evaluated at solar azimuth-from-south 200 with
max_rotation 0. -/
theorem azimuth_blume_clamped_witness :
    (0 : ℝ) ≤ 0 ∧
    (-(0 : ℝ) ≤ azimuth_blume 200 0 ∧ azimuth_blume 200 0 ≤ 0 ∧
      ((0 : ℝ) = 0 → azimuth_blume 200 0 = 0)) :=
  ⟨le_refl 0, azimuth_blume_clamped 200 0 (le_refl 0)⟩

/-- C6: for every ET series whose entries all carry an 'et' value and every
adjusted-ET series, `water_saved` equals the sum of the ET values minus the
sum of the adjusted values. -/
theorem water_saved_sum_diff (et_data : List ETEntry) (adjusted : List ℝ)
    (hwf : ∀ item ∈ et_data, item.hasET = true) :
    water_saved et_data adjusted
      = (et_data.map fun item => item.et).sum - adjusted.sum := by
  unfold water_saved
  rw [List.filter_eq_self.mpr hwf]

/-- C6 (witness): the sum identity at a concrete one-element pair. -/
theorem water_saved_sum_diff_witness :
    (∀ item ∈ [ETEntry.mk true 2], item.hasET = true) ∧
    water_saved [ETEntry.mk true 2] [(1 : ℝ)]
      = (([ETEntry.mk true 2] : List ETEntry).map fun item => item.et).sum
        - [(1 : ℝ)].sum :=
  ⟨by simp, water_saved_sum_diff _ _ (by simp)⟩

/-- C7: the refraction-corrected elevation is always at least the strictly
positive floor 1e-10, hence never zero, for every input elevation. -/
theorem solar_position_adj_floor (e : ℝ) :
    0.0000000001 ≤ solar_position_adj e ∧ 0 < solar_position_adj e :=
  ⟨le_max_left _ _, lt_of_lt_of_le (by norm_num) (le_max_left _ _)⟩

/-- C9: the daily aggregator rounds the matched sunrise up to the next whole
minute (no change when already exact), rounds the matched sunset down to the
whole minute, samples `shade_coverage` once per hour from the rounded sunrise
through the rounded sunset inclusive (each sample converted to UTC through
`utc_hour_of` inside `shade_coverage`), and returns the arithmetic mean of
the samples (0 when no sample is in range). -/
theorem iterate_sunrise_to_sunset_mean (pos : ℕ → ℕ → ℕ → ℤ → ℕ → ℝ × ℝ)
    (month day year : ℕ) (ground_area height width tilt max_rotation : ℝ)
    (timezone : ℤ) (sunrise sunset : ℕ) :
    ceilMinuteCode sunrise
      = MICROS_PER_MIN * ((sunrise + (MICROS_PER_MIN - 1)) / MICROS_PER_MIN) ∧
    floorMinute sunset = sunset - sunset % MICROS_PER_MIN ∧
    iterate_sunrise_to_sunset pos month day year ground_area height width tilt
        max_rotation timezone sunrise sunset
      = if ceilMinuteCode sunrise ≤ floorMinute sunset then
          (∑ i ∈ Finset.range
              ((floorMinute sunset - ceilMinuteCode sunrise) / MICROS_PER_HOUR + 1),
            dailySample pos year month day ground_area height width tilt
              max_rotation timezone
              (ceilMinuteCode sunrise + i * MICROS_PER_HOUR))
            / (((floorMinute sunset - ceilMinuteCode sunrise) / MICROS_PER_HOUR
                + 1 : ℕ) : ℝ)
        else 0 := by
  refine ⟨?_, ?_, ?_⟩
  · simp only [ceilMinuteCode, floorMinute, MICROS_PER_MIN]
    split_ifs with h
    · omega
    · omega
  · simp only [floorMinute, MICROS_PER_MIN]
    omega
  · simp only [iterate_sunrise_to_sunset]
    rw [shadeLoop_closed]
    by_cases hc : ceilMinuteCode sunrise ≤ floorMinute sunset
    · rw [if_pos hc, if_pos hc]
      rw [if_pos (by exact Nat.succ_ne_zero _)]
    · rw [if_neg hc, if_neg hc]
      simp

/-- C4 (counterexample): on a degenerate day whose matched sunrise and sunset
are the same exact-minute instant, the inclusive loop takes exactly one
sample, so (with a constant north-azimuth position oracle) the aggregator
returns that sample — which is nonzero — rather than 0. -/
theorem iterate_degenerate_nonzero_cex :
    iterate_sunrise_to_sunset constPosNorth 1 1 2022 1 1 1 0 0 0 0 0 ≠ 0 := by
  have hval : iterate_sunrise_to_sunset constPosNorth 1 1 2022 1 1 1 0 0 0 0 0
      = shade_coverage_core 45 0 1 1 1 0 0 := by
    simp only [iterate_sunrise_to_sunset]
    rw [shadeLoop_closed]
    have h00 : ceilMinuteCode 0 = 0 := by
      norm_num [ceilMinuteCode, floorMinute, MICROS_PER_MIN]
    have hf0 : floorMinute 0 = 0 := by norm_num [floorMinute, MICROS_PER_MIN]
    rw [h00, hf0, if_pos (le_refl 0)]
    norm_num [Finset.sum_range_one, dailySample, shade_coverage, constPosNorth,
      hourOf, minuteOf]
  rw [hval]
  exact ne_of_lt shade_coverage_core_neg_example

/-- C4 (amended): when the matched sunrise equals the matched sunset, the
aggregator returns 0 (taking no samples, with no division) exactly when the
instant is not a whole minute — rounding then makes the loop range empty;
when the shared instant is an exact whole minute the inclusive loop takes one
sample and returns its value. -/
theorem iterate_degenerate_rounding (pos : ℕ → ℕ → ℕ → ℤ → ℕ → ℝ × ℝ)
    (month day year : ℕ) (ground_area height width tilt max_rotation : ℝ)
    (timezone : ℤ) (sunrise : ℕ) :
    (sunrise % MICROS_PER_MIN ≠ 0 →
      iterate_sunrise_to_sunset pos month day year ground_area height width
        tilt max_rotation timezone sunrise sunrise = 0) ∧
    (sunrise % MICROS_PER_MIN = 0 →
      iterate_sunrise_to_sunset pos month day year ground_area height width
        tilt max_rotation timezone sunrise sunrise
        = dailySample pos year month day ground_area height width tilt
            max_rotation timezone sunrise) := by
  constructor
  · intro hne
    have hne' : sunrise % 60000000 ≠ 0 := by
      simpa [MICROS_PER_MIN] using hne
    have hgt : ¬ ceilMinuteCode sunrise ≤ floorMinute sunrise := by
      simp only [ceilMinuteCode, floorMinute, MICROS_PER_MIN]
      rw [if_neg hne']
      omega
    simp only [iterate_sunrise_to_sunset]
    rw [shadeLoop_closed, if_neg hgt]
    simp
  · intro hz
    have hz' : sunrise % 60000000 = 0 := by
      simpa [MICROS_PER_MIN] using hz
    have hceil : ceilMinuteCode sunrise = sunrise := by
      simp only [ceilMinuteCode, floorMinute, MICROS_PER_MIN]
      rw [if_pos hz']
      omega
    have hfloor : floorMinute sunrise = sunrise := by
      simp only [floorMinute, MICROS_PER_MIN]
      omega
    simp only [iterate_sunrise_to_sunset]
    rw [shadeLoop_closed, hceil, hfloor, if_pos (le_refl sunrise)]
    simp [Finset.sum_range_one]

/-- C4 (witness): the degenerate-day zero case at a 30-second instant. -/
theorem iterate_degenerate_rounding_witness :
    ((30000000 : ℕ) % MICROS_PER_MIN ≠ 0) ∧
    iterate_sunrise_to_sunset constPosNorth 1 1 2022 1 1 1 0 0 0
      30000000 30000000 = 0 :=
  ⟨by norm_num [MICROS_PER_MIN],
    (iterate_degenerate_rounding constPosNorth 1 1 2022 1 1 1 0 0 0 30000000).1
      (by norm_num [MICROS_PER_MIN])⟩

/-! ### First-minimum property of the Python `min(..., key=...)` fold -/

lemma foldl_closest_spec (t : ℤ) (xs : List (ℤ × ℤ)) :
    ∀ x : ℤ × ℤ,
      ∃ r, xs.foldl (fun best p =>
          if |t - p.1| < |t - best.1| then p else best) x = r ∧
        ((r = x ∧ ∀ q ∈ xs, |t - x.1| ≤ |t - q.1|) ∨
          (∃ l₁ l₂, xs = l₁ ++ r :: l₂ ∧ |t - r.1| < |t - x.1| ∧
            (∀ q ∈ l₁, |t - r.1| < |t - q.1|) ∧
            ∀ q ∈ l₂, |t - r.1| ≤ |t - q.1|)) := by
  induction xs with
  | nil =>
    intro x
    exact ⟨x, rfl, Or.inl ⟨rfl, by simp⟩⟩
  | cons y ys ih =>
    intro x
    rw [List.foldl_cons]
    by_cases hy : |t - y.1| < |t - x.1|
    · rw [if_pos hy]
      obtain ⟨r, hr, hca⟩ := ih y
      refine ⟨r, hr, Or.inr ?_⟩
      rcases hca with ⟨hrx, hmin⟩ | ⟨l₁, l₂, hsplit, hlt, hl₁, hl₂⟩
      · subst hrx
        exact ⟨[], ys, rfl, hy, by simp, hmin⟩
      · refine ⟨y :: l₁, l₂, by simp [hsplit], lt_trans hlt hy, ?_, hl₂⟩
        intro q hq
        rcases List.mem_cons.mp hq with h | h
        · subst h
          exact hlt
        · exact hl₁ q h
    · rw [if_neg hy]
      push_neg at hy
      obtain ⟨r, hr, hca⟩ := ih x
      refine ⟨r, hr, ?_⟩
      rcases hca with ⟨hrx, hmin⟩ | ⟨l₁, l₂, hsplit, hlt, hl₁, hl₂⟩
      · refine Or.inl ⟨hrx, ?_⟩
        intro q hq
        rcases List.mem_cons.mp hq with h | h
        · subst h
          exact hy
        · exact hmin q h
      · refine Or.inr ⟨y :: l₁, l₂, by simp [hsplit], hlt, ?_, hl₂⟩
        intro q hq
        rcases List.mem_cons.mp hq with h | h
        · subst h
          exact lt_of_lt_of_le hlt hy
        · exact hl₁ q h

/-- C8: on a nonempty stored sequence, `find_closest_sunrise_sunset` returns
the pair whose sunrise instant is closest in absolute time to the target
instant (the query date's local midnight), and among equally close pairs it
returns the first in sequence order: every pair strictly before the returned
one has strictly larger distance. -/
theorem find_closest_first_min (pairs : List (ℤ × ℤ)) (t : ℤ)
    (hne : pairs ≠ []) :
    ∃ p l₁ l₂, find_closest_sunrise_sunset pairs t = some p ∧
      pairs = l₁ ++ p :: l₂ ∧
      (∀ q ∈ pairs, |t - p.1| ≤ |t - q.1|) ∧
      (∀ q ∈ l₁, |t - p.1| < |t - q.1|) := by
  match pairs, hne with
  | x :: xs, _ =>
    obtain ⟨r, hr, hca⟩ := foldl_closest_spec t xs x
    rcases hca with ⟨hrx, hmin⟩ | ⟨l₁, l₂, hsplit, hlt, hl₁, hl₂⟩
    · subst hrx
      refine ⟨r, [], xs, ?_, by simp, ?_, by simp⟩
      · simp only [find_closest_sunrise_sunset]
        rw [hr]
      · intro q hq
        rcases List.mem_cons.mp hq with h | h
        · subst h
          exact le_refl _
        · exact hmin q h
    · refine ⟨r, x :: l₁, l₂, ?_, by simp [hsplit], ?_, ?_⟩
      · simp only [find_closest_sunrise_sunset]
        rw [hr]
      · intro q hq
        rcases List.mem_cons.mp hq with h | h
        · subst h
          exact le_of_lt hlt
        · rw [hsplit] at h
          rcases List.mem_append.mp h with h | h
          · exact le_of_lt (hl₁ q h)
          · rcases List.mem_cons.mp h with h | h
            · subst h
              exact le_refl _
            · exact hl₂ q h
      · intro q hq
        rcases List.mem_cons.mp hq with h | h
        · subst h
          exact hlt
        · exact hl₁ q h

/-- C8 (witness): biweekly pairs at days 1, 15, 29 (sunrise 07:00, sunset
17:00 local, measured in minutes since the year start); the query for day
20's local midnight (minute 27360) returns the day-15 pair (minute 20580),
which is closer than the day-29 pair, and the first-minimum property is
instantiated there. -/
theorem find_closest_first_min_witness :
    (([((420 : ℤ), (1020 : ℤ)), (20580, 21180), (40740, 41340)] :
        List (ℤ × ℤ)) ≠ []) ∧
    find_closest_sunrise_sunset
        [((420 : ℤ), (1020 : ℤ)), (20580, 21180), (40740, 41340)] 27360
      = some (20580, 21180) ∧
    (∃ p l₁ l₂, find_closest_sunrise_sunset
        [((420 : ℤ), (1020 : ℤ)), (20580, 21180), (40740, 41340)] 27360
        = some p ∧
      ([((420 : ℤ), (1020 : ℤ)), (20580, 21180), (40740, 41340)] :
          List (ℤ × ℤ)) = l₁ ++ p :: l₂ ∧
      (∀ q ∈ ([((420 : ℤ), (1020 : ℤ)), (20580, 21180), (40740, 41340)] :
          List (ℤ × ℤ)), |27360 - p.1| ≤ |27360 - q.1|) ∧
      (∀ q ∈ l₁, |27360 - p.1| < |27360 - q.1|)) :=
  ⟨by decide, by decide,
    find_closest_first_min
      [((420 : ℤ), (1020 : ℤ)), (20580, 21180), (40740, 41340)] 27360
      (by decide)⟩

/-- C10 (implicit): the UTC instant handed to the position provider keeps the
local calendar date and only replaces the hour by `(local_hour − tz) mod 24`
(`utc_hour_of`, line 112).  When the true UTC equivalent of the local sample
lies on the same calendar day the queried instant is the true instant; when
it falls on a different calendar day, the queried instant differs from the
true UTC instant by exactly 24 hours (1440 minutes). -/
theorem utc_hour_day_preserving (local_hour minute : ℕ) (timezone day : ℤ)
    (hh : local_hour < 24) (hm : minute < 60)
    (h1 : -24 < timezone) (h2 : timezone < 24) :
    utc_hour_of local_hour timezone = ((local_hour : ℤ) - timezone) % 24 ∧
    (dayOf (minutesOfDayHour day (local_hour : ℤ) (minute : ℤ)
        - timezone * 60) = day →
      minutesOfDayHour day (utc_hour_of local_hour timezone) (minute : ℤ)
        = minutesOfDayHour day (local_hour : ℤ) (minute : ℤ)
          - timezone * 60) ∧
    (dayOf (minutesOfDayHour day (local_hour : ℤ) (minute : ℤ)
        - timezone * 60) ≠ day →
      minutesOfDayHour day (utc_hour_of local_hour timezone) (minute : ℤ)
          - (minutesOfDayHour day (local_hour : ℤ) (minute : ℤ)
            - timezone * 60) = 24 * 60 ∨
      (minutesOfDayHour day (local_hour : ℤ) (minute : ℤ) - timezone * 60)
          - minutesOfDayHour day (utc_hour_of local_hour timezone)
            (minute : ℤ) = 24 * 60) := by
  unfold utc_hour_of minutesOfDayHour dayOf
  refine ⟨rfl, ?_, ?_⟩
  · intro hday
    omega
  · intro hday
    omega

/-- C10 (witness): local hour 20 at UTC offset −8 on day 100 — the true UTC
instant is on day 101, and the queried instant is exactly 24 hours earlier. -/
theorem utc_hour_day_preserving_witness :
    ((20 : ℕ) < 24) ∧ ((0 : ℕ) < 60) ∧ ((-24 : ℤ) < -8) ∧ ((-8 : ℤ) < 24) ∧
    (dayOf (minutesOfDayHour 100 ((20 : ℕ) : ℤ) ((0 : ℕ) : ℤ)
        - (-8) * 60) ≠ 100) ∧
    (minutesOfDayHour 100 (utc_hour_of 20 (-8)) ((0 : ℕ) : ℤ)
        - (minutesOfDayHour 100 ((20 : ℕ) : ℤ) ((0 : ℕ) : ℤ)
          - (-8) * 60) = 24 * 60 ∨
      (minutesOfDayHour 100 ((20 : ℕ) : ℤ) ((0 : ℕ) : ℤ) - (-8) * 60)
        - minutesOfDayHour 100 (utc_hour_of 20 (-8)) ((0 : ℕ) : ℤ)
          = 24 * 60) := by
  have hday : dayOf (minutesOfDayHour 100 ((20 : ℕ) : ℤ) ((0 : ℕ) : ℤ)
      - (-8) * 60) ≠ 100 := by decide
  exact ⟨by norm_num, by norm_num, by norm_num, by norm_num, hday,
    (utc_hour_day_preserving 20 0 (-8) 100 (by norm_num) (by norm_num)
      (by norm_num) (by norm_num)).2.2 hday⟩

end AgriET
